import Mathlib

/-
Shallow embedding of scripts/crawl_hotels.py.

Numeric JSON values (coordinates, ratings) are modelled as rationals (ℚ);
machine floating point never overflows or rounds in the ranges this script
handles, and every comparison in the source is order/equality on literals.
Python dictionary fields that may be absent or None are modelled as Option.
Network I/O is modelled by passing in the responses (a CityWorld per city);
an exception raised by requests.get or response.json() is the FetchResult.exn
constructor.  Console printing is modelled as an explicit log list so that
"surfaced to the operator" claims are statable.
-/

namespace CrawlHotels

/-- Fields of one entry of the "results" array of a Places text-search
response, as read by the script.  lat and lng flatten the source's
geometry.location.lat / geometry.location.lng chain of .get calls:
absence at any level is none. -/
structure Place where
  name : Option String
  formatted_address : Option String
  lat : Option ℚ
  lng : Option ℚ
  rating : Option ℚ
  user_ratings_total : Option ℤ
  place_id : Option String
deriving DecidableEq

/-- The hotel dict built at crawl_hotels.py lines 79-87 / 103-111. -/
structure Hotel where
  name : String
  formatted_address : String
  latitude : Option ℚ
  longitude : Option ℚ
  rating : ℚ
  user_ratings_total : ℤ
  place_id : Option String
deriving DecidableEq

/-- The decoded JSON body, with exactly the fields the script reads.
results is none when the "results" key is absent, similarly
next_page_token; status and error_message are read with .get (None when
absent). -/
structure ApiResponse where
  status : Option String
  error_message : Option String
  results : Option (List Place)
  next_page_token : Option String
deriving DecidableEq

/-- Outcome of one requests.get + response.json() pair: either a decoded
JSON object or an exception raised by the request or the parse. -/
inductive FetchResult where
  | ok (d : ApiResponse)
  | exn
deriving DecidableEq

/-- The two pages a single search_hotels_in_city call can request.  page2
is consulted only when page1 decodes with status OK and carries a
next_page_token. -/
structure CityWorld where
  page1 : FetchResult
  page2 : FetchResult
deriving DecidableEq

/-- Console lines search_hotels_in_city prints, abstracted to the data
they carry. -/
inductive LogLine where
  | apiError (status : Option String) (msg : String)
  | requestDeniedHint
  | placesFound (n : Nat)
  | hotelKept (name : String) (rating : ℚ)
  | nextPage
  | cityError
deriving DecidableEq

/-- The hotel dict built from one place (crawl_hotels.py lines 77-87):
every string field defaults to "", rating defaults to 0, the review count
defaults to 0, coordinates and place_id keep their optionality. -/
def mkHotel (p : Place) : Hotel :=
  { name := p.name.getD ""
    formatted_address := p.formatted_address.getD ""
    latitude := p.lat
    longitude := p.lng
    rating := p.rating.getD 0
    user_ratings_total := p.user_ratings_total.getD 0
    place_id := p.place_id }

/-- The body of the per-place loop (lines 75-88 and 100-112): keep a place
when rating >= 4.0 or rating == 0, where rating is place.get("rating", 0). -/
def placeFilter (p : Place) : Option Hotel :=
  let rating := p.rating.getD 0
  if 4 ≤ rating ∨ rating = 0 then some (mkHotel p) else none

/-- Hotels appended while looping over one page of results. -/
def keptHotels (places : List Place) : List Hotel :=
  places.filterMap placeFilter

/-- Per-hotel console lines emitted while looping over one page. -/
def keptLogs (places : List Place) : List LogLine :=
  (keptHotels places).map fun h => .hotelKept h.name h.rating

/-- Hotels accumulated from the first page of a decoded response d with
status OK: the filtered results when the "results" key is present, nothing
otherwise. -/
def firstPageHotels (d : ApiResponse) : List Hotel :=
  match d.results with
  | some places => keptHotels places
  | none => []

/-- Console lines of the first-page results loop. -/
def firstPageLogs (d : ApiResponse) : List LogLine :=
  match d.results with
  | some places => .placesFound places.length :: keptLogs places
  | none => []

/-- search_hotels_in_city (crawl_hotels.py lines 44-122).  The whole body
sits in one try/except, so an exception at either fetch is caught at the
city boundary and whatever was already appended to hotels is returned.
Returns the hotels list together with the console lines printed. -/
def search_hotels_in_city (w : CityWorld) : List Hotel × List LogLine :=
  match w.page1 with
  | .exn => ([], [.cityError])
  | .ok d =>
    if d.status ≠ some "OK" then
      ([], .apiError d.status (d.error_message.getD "Unknown error") ::
           (if d.status = some "REQUEST_DENIED" then [.requestDeniedHint] else []))
    else
      match d.next_page_token with
      | none => (firstPageHotels d, firstPageLogs d)
      | some _ =>
        match w.page2 with
        | .exn => (firstPageHotels d, firstPageLogs d ++ [.nextPage, .cityError])
        | .ok nd =>
          if nd.status = some "OK" then
            match nd.results with
            | some places =>
              (firstPageHotels d ++ keptHotels places,
               firstPageLogs d ++ .nextPage :: keptLogs places)
            | none => (firstPageHotels d, firstPageLogs d ++ [.nextPage])
          else (firstPageHotels d, firstPageLogs d ++ [.nextPage])

/-- The fixed city list (crawl_hotels.py lines 27-42). -/
def CITIES : List String :=
  ["서울", "부산", "제주", "인천", "대구", "대전", "광주",
   "울산", "경주", "강릉", "여수", "전주", "춘천", "속초"]

/-- Python truthiness of hotel.get("place_id"): None and "" are falsy. -/
def pidTruthy (h : Hotel) : Bool :=
  match h.place_id with
  | some pid => pid ≠ ""
  | none => false

/-- The place_id string of a hotel, defaulting to "" when absent; for a
hotel whose place_id is truthy this is exactly its place_id value. -/
def pidOf (h : Hotel) : String :=
  h.place_id.getD ""

/-- One iteration of the inner loop of get_all_hotels (lines 133-137):
state is (all_hotels, seen_place_ids), with the seen set as a list.  The
guard is the source's "hotel.get("place_id") and hotel["place_id"] not in
seen_place_ids": truthiness of the id, then absence from the seen set. -/
def dedupStep (st : List Hotel × List String) (h : Hotel) : List Hotel × List String :=
  if pidTruthy h = true ∧ pidOf h ∉ st.2 then (st.1 ++ [h], pidOf h :: st.2) else st

/-- get_all_hotels (crawl_hotels.py lines 124-141), abstracted over the
per-city fetch (search_hotels_in_city with a fixed api key in the script). -/
def get_all_hotels (fetch : String → List Hotel) : List Hotel :=
  (CITIES.foldl (fun st city => (fetch city).foldl dedupStep st) ([], [])).1

/-- First-occurrence deduplication, written as a direct recursion: keep a
record when its place_id is truthy and not yet seen. -/
def dedupFirst : List Hotel → List String → List Hotel
  | [], _ => []
  | h :: t, seen =>
    if pidTruthy h = true ∧ pidOf h ∉ seen then h :: dedupFirst t (pidOf h :: seen)
    else dedupFirst t seen

/-- The seen set after folding dedupStep over a list. -/
def seenAfter : List Hotel → List String → List String
  | [], seen => seen
  | h :: t, seen =>
    if pidTruthy h = true ∧ pidOf h ∉ seen then seenAfter t (pidOf h :: seen)
    else seenAfter t seen

/-- One row of the insert_data payload (crawl_hotels.py lines 158-166).
latitude, longitude and rating are nullable in storage; the review count
is a plain integer. -/
structure Row where
  name : String
  formatted_address : String
  latitude : Option ℚ
  longitude : Option ℚ
  rating : Option ℚ
  user_ratings_total : ℤ
  place_id : Option String
deriving DecidableEq

/-- The per-hotel coercion of lines 158-166.  Each conditional is Python
truthiness: a None or 0.0 coordinate becomes None, a 0 rating becomes
None, a 0 review count stays the integer 0. -/
def toRow (h : Hotel) : Row :=
  { name := h.name
    formatted_address := h.formatted_address
    latitude := match h.latitude with
      | some v => if v ≠ 0 then some v else none
      | none => none
    longitude := match h.longitude with
      | some v => if v ≠ 0 then some v else none
      | none => none
    rating := if h.rating ≠ 0 then some h.rating else none
    user_ratings_total := if h.user_ratings_total ≠ 0 then h.user_ratings_total else 0
    place_id := h.place_id }

/-- Structural worker for the batching loop: fuel bounds the recursion
depth and any fuel at least the list length yields the slicing of
range(0, len, 100).  The middle equation is unreachable under that bound. -/
def chunksFuel : Nat → List Hotel → List (List Hotel)
  | _, [] => []
  | 0, l => [l]
  | fuel + 1, h :: t => (h :: t).take 100 :: chunksFuel fuel ((h :: t).drop 100)

/-- The slicing loop for i in range(0, len(hotels), 100): successive
slices hotels[i:i+100]. -/
def chunks (hotels : List Hotel) : List (List Hotel) :=
  chunksFuel hotels.length hotels

/-- Console lines insert_to_supabase prints for one batch: the success
line with the batch size and the running total, or the error line carrying
json.dumps(insert_data[:2], ...) as its payload sample. -/
inductive PersistLog where
  | inserted (n : Nat) (total : Nat)
  | batchFailed (sample : List Row)
deriving DecidableEq

/-- One iteration of the batch loop (lines 152-177): build insert_data,
try the upsert, on success add len(insert_data) to the total and print the
progress line, on exception print the error with insert_data[:2] and keep
the total unchanged. -/
def persistStep (upsert : List Row → Bool) (st : Nat × List PersistLog)
    (batch : List Hotel) : Nat × List PersistLog :=
  let rows := batch.map toRow
  if upsert rows then
    (st.1 + rows.length, st.2 ++ [.inserted rows.length (st.1 + rows.length)])
  else
    (st.1, st.2 ++ [.batchFailed (rows.take 2)])

/-- insert_to_supabase (crawl_hotels.py lines 143-179), abstracted over
whether each upsert().execute() call succeeds (true) or raises (false).
Returns total_inserted together with the console lines printed. -/
def insert_to_supabase (hotels : List Hotel) (upsert : List Row → Bool) :
    Nat × List PersistLog :=
  (chunks hotels).foldl (persistStep upsert) (0, [])

/-- The three environment values main checks (lines 22-24, 188-200). -/
structure Config where
  googleKey : Option String
  supabaseUrl : Option String
  supabaseKey : Option String
deriving DecidableEq

/-- Python truthiness of an environment string: os.getenv returns None
when unset, and "" is falsy too. -/
def strTruthy : Option String → Bool
  | none => false
  | some s => s ≠ ""

/-- Externally visible actions of one run, in program order: an HTTP GET,
the create_client call, the backup-file write attempt, one upsert call per
batch. -/
inductive Effect where
  | http
  | dbClient
  | fileWrite
  | upsertCall
deriving DecidableEq

/-- HTTP requests a single search_hotels_in_city call issues: always the
first page; the second page exactly when the first decoded with status OK
and carried a next_page_token (the request is issued even if it then
raises). -/
def cityEffects (w : CityWorld) : List Effect :=
  match w.page1 with
  | .exn => [.http]
  | .ok d =>
    if d.status = some "OK" ∧ d.next_page_token.isSome then [.http, .http]
    else [.http]

/-- How a run of main ends. backupRaised is the uncaught exception from
the backup open/json.dump (lines 232-233), which propagates out of main. -/
inductive MainResult where
  | missingApiKey
  | missingDbConfig
  | noHotels
  | backupRaised
  | completed (inserted : Nat)
deriving DecidableEq

/-- main (crawl_hotels.py lines 181-243): check the three environment
values, create the client, crawl, bail out on an empty collection, write
the backup, upsert.  backupOk models whether the backup write raises.
Returns the outcome and the trace of external effects in program order. -/
def main_run (cfg : Config) (world : String → CityWorld) (backupOk : Bool)
    (upsert : List Row → Bool) : MainResult × List Effect :=
  if ¬ strTruthy cfg.googleKey then (.missingApiKey, [])
  else if ¬ (strTruthy cfg.supabaseUrl ∧ strTruthy cfg.supabaseKey) then
    (.missingDbConfig, [])
  else
    let crawlFx := (CITIES.map fun c => cityEffects (world c)).flatten
    let hotels := get_all_hotels fun c => (search_hotels_in_city (world c)).1
    if hotels.length = 0 then (.noHotels, .dbClient :: crawlFx)
    else if ¬ backupOk then (.backupRaised, .dbClient :: crawlFx ++ [.fileWrite])
    else
      (.completed (insert_to_supabase hotels upsert).1,
       .dbClient :: crawlFx ++ [.fileWrite] ++ (chunks hotels).map fun _ => .upsertCall)

/-- The rating policy as the spec states it: keep a place when its rating
is at least 4.0 or its rating is absent (reported as 0). -/
def ratingKeep (p : Place) : Bool :=
  decide (4 ≤ p.rating.getD 0 ∨ p.rating.getD 0 = 0)

/-- Batch sizes the spec promises for n records: n / 100 full batches of
100 and, when n is not a multiple of 100, a final batch of n mod 100. -/
def chunkSizes (n : Nat) : List Nat :=
  List.replicate (n / 100) 100 ++ (if n % 100 = 0 then [] else [n % 100])

/-- A result entry carrying only a rating, for concrete filter checks. -/
def placeWithRating (r : Option ℚ) : Place :=
  { name := none, formatted_address := none, lat := none, lng := none,
    rating := r, user_ratings_total := none, place_id := none }

/-- A concrete hotel with a truthy place_id. -/
def hotelW : Hotel :=
  { name := "W", formatted_address := "", latitude := none, longitude := none,
    rating := 4, user_ratings_total := 0, place_id := some "pidW" }

/-- A second concrete hotel with a different truthy place_id. -/
def hotelX : Hotel :=
  { name := "X", formatted_address := "", latitude := some 1, longitude := some 2,
    rating := 5, user_ratings_total := 7, place_id := some "pidX" }

/-- A per-city fetch that returns hotelW for the first city and nothing
elsewhere. -/
def fetchW : String → List Hotel :=
  fun c => if c = "서울" then [hotelW] else []

/-- First page of a two-page OK exchange: one 4.5-rated and one 3.9-rated
place. -/
def respPage1 : ApiResponse :=
  { status := some "OK", error_message := none,
    results := some [placeWithRating (some (mkRat 9 2)), placeWithRating (some (mkRat 39 10))],
    next_page_token := some "tok" }

/-- Second page of the exchange: a single unrated place. -/
def respPage2 : ApiResponse :=
  { status := some "OK", error_message := none,
    results := some [placeWithRating none], next_page_token := none }

/-- A city whose two pages both decode with status OK. -/
def cityTwoPages : CityWorld := { page1 := .ok respPage1, page2 := .ok respPage2 }

/-- An OK first page with one kept hotel and a pagination token. -/
def respOnePlace : ApiResponse :=
  { status := some "OK", error_message := none,
    results := some [{ name := some "H", formatted_address := some "a",
                       lat := none, lng := none, rating := some 5,
                       user_ratings_total := some 3, place_id := some "x" }],
    next_page_token := some "tok" }

/-- A city whose first page decodes OK with one kept hotel and a
pagination token, and whose second-page fetch raises. -/
def cityPage2Exn : CityWorld := { page1 := .ok respOnePlace, page2 := .exn }

/-- A first page that decodes with a REQUEST_DENIED status. -/
def respDenied : ApiResponse :=
  { status := some "REQUEST_DENIED", error_message := some "bad key",
    results := none, next_page_token := none }

/-- A city whose first page decodes with a REQUEST_DENIED status. -/
def cityDenied : CityWorld := { page1 := .ok respDenied, page2 := .exn }

/-- A city where both fetches raise. -/
def cityExn : CityWorld := { page1 := .exn, page2 := .exn }

/-- A world where every city's fetches raise: the crawl gathers nothing. -/
def worldExn : String → CityWorld := fun _ => cityExn

/-- A two-record collection for batching checks. -/
def hotelsWX : List Hotel := [hotelW, hotelX]

/-- An upsert stub whose every call raises. -/
def upsertFalse : List Row → Bool := fun _ => false

/-- An upsert stub whose every call succeeds. -/
def upsertTrue : List Row → Bool := fun _ => true

/-- An environment with the places-API credential unset. -/
def cfgNoKey : Config :=
  { googleKey := none, supabaseUrl := some "url", supabaseKey := some "key" }

/-- An environment with all three values set. -/
def cfgFull : Config :=
  { googleKey := some "g", supabaseUrl := some "url", supabaseKey := some "key" }

/-- A hotel whose rating and one coordinate are exactly 0. -/
def hotelZero : Hotel :=
  { name := "Z", formatted_address := "", latitude := some 0, longitude := some 3,
    rating := 0, user_ratings_total := 0, place_id := some "pidZ" }

theorem pidTruthy_iff (h : Hotel) :
    pidTruthy h = true ↔ h.place_id = some (pidOf h) ∧ pidOf h ≠ "" := by
  unfold pidTruthy pidOf
  cases h.place_id <;> simp

theorem foldl_dedupStep (l : List Hotel) (acc : List Hotel) (seen : List String) :
    l.foldl dedupStep (acc, seen) = (acc ++ dedupFirst l seen, seenAfter l seen) := by
  induction l generalizing acc seen with
  | nil => simp [dedupFirst, seenAfter]
  | cons h t ih =>
    simp only [List.foldl_cons, dedupStep, dedupFirst, seenAfter]
    by_cases hc : pidTruthy h = true ∧ pidOf h ∉ seen
    · rw [if_pos hc, if_pos hc, if_pos hc, ih]
      simp
    · rw [if_neg hc, if_neg hc, if_neg hc, ih]

theorem get_all_hotels_eq (fetch : String → List Hotel) :
    get_all_hotels fetch = dedupFirst ((CITIES.map fetch).flatten) [] := by
  have key : ∀ (cities : List String) (st : List Hotel × List String),
      cities.foldl (fun st city => (fetch city).foldl dedupStep st) st =
        ((cities.map fetch).flatten).foldl dedupStep st := by
    intro cities
    induction cities with
    | nil => intro st; simp
    | cons c cs ih =>
      intro st
      simp only [List.foldl_cons, List.map_cons, List.flatten_cons, List.foldl_append]
      exact ih _
  unfold get_all_hotels
  rw [key, foldl_dedupStep]
  simp

theorem dedupFirst_mem (l : List Hotel) (seen : List String) (x : Hotel)
    (hx : x ∈ dedupFirst l seen) :
    pidTruthy x = true ∧ pidOf x ∉ seen := by
  induction l generalizing seen with
  | nil => simp [dedupFirst] at hx
  | cons h t ih =>
    simp only [dedupFirst] at hx
    by_cases hc : pidTruthy h = true ∧ pidOf h ∉ seen
    · rw [if_pos hc] at hx
      rcases List.mem_cons.mp hx with rfl | hxt
      · exact hc
      · have := ih (pidOf h :: seen) hxt
        exact ⟨this.1, fun hs => this.2 (List.mem_cons_of_mem _ hs)⟩
    · rw [if_neg hc] at hx
      exact ih seen hx

theorem dedupFirst_pairwise (l : List Hotel) (seen : List String) :
    (dedupFirst l seen).Pairwise (fun a b => a.place_id ≠ b.place_id) := by
  induction l generalizing seen with
  | nil => simp [dedupFirst]
  | cons h t ih =>
    simp only [dedupFirst]
    by_cases hc : pidTruthy h = true ∧ pidOf h ∉ seen
    · rw [if_pos hc]
      refine List.Pairwise.cons ?_ (ih (pidOf h :: seen))
      intro b hb
      have hbmem := dedupFirst_mem t (pidOf h :: seen) b hb
      have hbpid := (pidTruthy_iff b).mp hbmem.1
      have hhpid := (pidTruthy_iff h).mp hc.1
      rw [hhpid.1, hbpid.1]
      intro hEq
      have : pidOf h = pidOf b := by injection hEq
      exact hbmem.2 (this ▸ List.mem_cons_self _ _)
    · rw [if_neg hc]
      exact ih seen

theorem dedupFirst_covers (l : List Hotel) (seen : List String) (x : Hotel)
    (hx : x ∈ l) (htr : pidTruthy x = true) :
    pidOf x ∈ seen ∨ ∃ y ∈ dedupFirst l seen, y.place_id = x.place_id := by
  induction l generalizing seen with
  | nil => cases hx
  | cons h t ih =>
    simp only [dedupFirst]
    rcases List.mem_cons.mp hx with rfl | hxt
    · by_cases hin : pidOf x ∈ seen
      · left; exact hin
      · rw [if_pos ⟨htr, hin⟩]
        right
        exact ⟨x, List.mem_cons_self _ _, rfl⟩
    · by_cases hc : pidTruthy h = true ∧ pidOf h ∉ seen
      · rw [if_pos hc]
        rcases ih (pidOf h :: seen) hxt with hmem | ⟨y, hy, hyp⟩
        · rcases List.mem_cons.mp hmem with hEq | hseen
          · right
            refine ⟨h, List.mem_cons_self _ _, ?_⟩
            rw [((pidTruthy_iff h).mp hc.1).1, ((pidTruthy_iff x).mp htr).1, hEq]
          · left; exact hseen
        · right; exact ⟨y, List.mem_cons_of_mem _ hy, hyp⟩
      · rw [if_neg hc]
        exact ih seen hxt

theorem dedupFirst_sublist (l : List Hotel) (seen : List String) :
    (dedupFirst l seen).Sublist l := by
  induction l generalizing seen with
  | nil => simp [dedupFirst]
  | cons h t ih =>
    simp only [dedupFirst]
    by_cases hc : pidTruthy h = true ∧ pidOf h ∉ seen
    · rw [if_pos hc]
      exact (ih (pidOf h :: seen)).cons₂ h
    · rw [if_neg hc]
      exact (ih seen).cons h

/-- C1: get_all_hotels deduplicates the city-order concatenation of the
per-city results by place_id: no two output records share a place_id;
every concatenation record with a present non-empty place_id is
represented in the output by a record carrying that same place_id (the
record that survives is the first occurrence, per the recursion
dedupFirst); the output is exactly the first-occurrence subsequence of the
concatenation, so output order is first-occurrence order in city-list
order; and every output record has a present non-empty place_id, so
records with a missing or empty place_id are dropped. -/
theorem C1_get_all_hotels_dedup (fetch : String → List Hotel) :
    ((get_all_hotels fetch).Pairwise fun a b => a.place_id ≠ b.place_id) ∧
    (∀ h ∈ (CITIES.map fetch).flatten, pidTruthy h = true →
      ∃ x ∈ get_all_hotels fetch, x.place_id = h.place_id) ∧
    get_all_hotels fetch = dedupFirst ((CITIES.map fetch).flatten) [] ∧
    (get_all_hotels fetch).Sublist ((CITIES.map fetch).flatten) ∧
    (∀ x ∈ get_all_hotels fetch, pidTruthy x = true) := by
  have heq := get_all_hotels_eq fetch
  refine ⟨?_, ?_, heq, ?_, ?_⟩
  · rw [heq]; exact dedupFirst_pairwise _ _
  · intro h hmem htr
    rcases dedupFirst_covers _ [] h hmem htr with hmemnil | ⟨y, hy, hyp⟩
    · cases hmemnil
    · exact ⟨y, heq ▸ hy, hyp⟩
  · rw [heq]; exact dedupFirst_sublist _ _
  · intro x hx
    rw [heq] at hx
    exact (dedupFirst_mem _ _ x hx).1

/-- C1 witness: a record with place_id "pidW" surfaced by the first city
is represented in the deduplicated output. -/
theorem C1_get_all_hotels_dedup_witness :
    ∃ x ∈ get_all_hotels fetchW, x.place_id = hotelW.place_id :=
  (C1_get_all_hotels_dedup fetchW).2.1 hotelW (by decide) (by decide)

theorem keptHotels_eq_filter (places : List Place) :
    keptHotels places = (places.filter ratingKeep).map mkHotel := by
  induction places with
  | nil => rfl
  | cons p t ih =>
    simp only [keptHotels, List.filterMap_cons, List.filter_cons] at *
    by_cases hp : 4 ≤ p.rating.getD 0 ∨ p.rating.getD 0 = 0
    · simp [placeFilter, ratingKeep, hp, ih]
    · simp [placeFilter, ratingKeep, hp, ih]

/-- C2: in a run whose first page decodes with status OK and results and
carries a pagination token, and whose second page also decodes with
status OK and results, the collector output is the first page's places
filtered by the stated rating policy — keep when rating is at least 4.0 or
absent (reported 0) — followed by the second page's places filtered by the
same policy; and, concretely, a 4.5 rating is kept, a 3.9 rating is
dropped, and a 0 or absent rating is kept. -/
theorem C2_rating_filter (w : CityWorld) (d nd : ApiResponse) (ps qs : List Place)
    (h1 : w.page1 = .ok d) (hst : d.status = some "OK") (hres : d.results = some ps)
    (htok : d.next_page_token.isSome = true) (h2 : w.page2 = .ok nd)
    (hnst : nd.status = some "OK") (hnres : nd.results = some qs) :
    (search_hotels_in_city w).1 =
      (ps.filter ratingKeep).map mkHotel ++ (qs.filter ratingKeep).map mkHotel ∧
    ratingKeep (placeWithRating (some (mkRat 9 2))) = true ∧
    (mkRat 9 2 : ℚ) = 4.5 ∧
    ratingKeep (placeWithRating (some (mkRat 39 10))) = false ∧
    (mkRat 39 10 : ℚ) = 3.9 ∧
    ratingKeep (placeWithRating (some 0)) = true ∧
    ratingKeep (placeWithRating none) = true := by
  refine ⟨?_, by decide, by norm_num [mkRat, Rat.normalize], by decide,
          by norm_num [mkRat, Rat.normalize], by decide, by decide⟩
  obtain ⟨p1, p2⟩ := w
  simp only at h1 h2
  subst h1
  subst h2
  obtain ⟨tok, htokEq⟩ := Option.isSome_iff_exists.mp htok
  simp only [search_hotels_in_city, htokEq]
  rw [if_neg (by simp [hst]), if_pos hnst]
  simp [firstPageHotels, hres, hnres, keptHotels_eq_filter]

/-- C2 witness: the concrete two-page exchange cityTwoPages (ratings 4.5
and 3.9 on page one, an unrated place on page two) filters both pages by
the stated policy. -/
theorem C2_rating_filter_witness :
    (search_hotels_in_city cityTwoPages).1 =
      ((respPage1.results.getD []).filter ratingKeep).map mkHotel ++
      ((respPage2.results.getD []).filter ratingKeep).map mkHotel :=
  (C2_rating_filter cityTwoPages respPage1 respPage2 (respPage1.results.getD [])
    (respPage2.results.getD []) rfl rfl rfl rfl rfl rfl rfl).1

/-- C3 counterexample: in cityPage2Exn an exception is raised during the
city's fetch (the second-page request), yet search_hotels_in_city returns
a non-empty list — the first page's hotel — not zero results. -/
theorem C3_counterexample :
    cityPage2Exn.page2 = FetchResult.exn ∧
    (search_hotels_in_city cityPage2Exn).1 ≠ [] := by
  exact ⟨rfl, by decide⟩

/-- C3 (amended): an exception during a city's fetch is caught at the city
boundary — search_hotels_in_city returns normally, never raising past
itself — and the city yields the hotels accumulated before the exception:
zero results when the first page's request or parse raises, and the first
page's filtered results when the second page's request or parse raises
(with the stack-trace print modelled as the cityError log line). -/
theorem C3_exception_caught (w : CityWorld) :
    (w.page1 = .exn → search_hotels_in_city w = ([], [.cityError])) ∧
    (∀ d, w.page1 = .ok d → d.status = some "OK" →
      d.next_page_token.isSome = true → w.page2 = .exn →
      search_hotels_in_city w =
        (firstPageHotels d, firstPageLogs d ++ [.nextPage, .cityError])) := by
  obtain ⟨p1, p2⟩ := w
  constructor
  · intro h
    simp only at h
    subst h
    rfl
  · intro d h1 hst htok h2
    simp only at h1 h2
    subst h1
    subst h2
    obtain ⟨tok, htokEq⟩ := Option.isSome_iff_exists.mp htok
    simp only [search_hotels_in_city, htokEq]
    rw [if_neg (by simp [hst])]

/-- C3 witness: with both fetches raising the city yields zero results,
and in cityPage2Exn the second-page exception yields exactly the first
page's filtered hotels. -/
theorem C3_exception_caught_witness :
    search_hotels_in_city cityExn = ([], [LogLine.cityError]) ∧
    search_hotels_in_city cityPage2Exn =
      (firstPageHotels respOnePlace,
       firstPageLogs respOnePlace ++ [.nextPage, .cityError]) :=
  ⟨(C3_exception_caught cityExn).1 rfl,
   (C3_exception_caught cityPage2Exn).2 respOnePlace rfl rfl rfl rfl⟩

/-- C5: a first-page response whose status field is not "OK" yields an
empty hotel list for the city, returned normally (no exception escapes),
with the status and the provider error message — defaulting to "Unknown
error" — printed first, plus the api-key hint when the status is
REQUEST_DENIED. -/
theorem C5_non_ok_status (w : CityWorld) (d : ApiResponse)
    (h1 : w.page1 = .ok d) (hst : d.status ≠ some "OK") :
    search_hotels_in_city w =
      ([], .apiError d.status (d.error_message.getD "Unknown error") ::
           (if d.status = some "REQUEST_DENIED" then [.requestDeniedHint] else [])) := by
  obtain ⟨p1, p2⟩ := w
  simp only at h1
  subst h1
  simp only [search_hotels_in_city]
  rw [if_pos hst]

/-- C5 witness: the REQUEST_DENIED city returns no hotels and surfaces the
status, its error message, and the api-key hint. -/
theorem C5_non_ok_status_witness :
    search_hotels_in_city cityDenied =
      ([], .apiError respDenied.status (respDenied.error_message.getD "Unknown error") ::
           (if respDenied.status = some "REQUEST_DENIED" then [.requestDeniedHint]
            else [])) :=
  C5_non_ok_status cityDenied respDenied rfl (by decide)

theorem chunksFuel_ge (f : Nat) : ∀ (g : Nat) (l : List Hotel),
    l.length ≤ f → l.length ≤ g → chunksFuel f l = chunksFuel g l := by
  induction f with
  | zero =>
    intro g l hf _
    have hl : l = [] := List.eq_nil_of_length_eq_zero (Nat.le_zero.mp hf)
    subst hl
    cases g <;> rfl
  | succ f ih =>
    intro g l hf hg
    cases l with
    | nil => cases g <;> rfl
    | cons h t =>
      cases g with
      | zero => simp at hg
      | succ g =>
        simp only [List.length_cons] at hf hg
        simp only [chunksFuel]
        congr 1
        apply ih
        · simp only [List.length_drop, List.length_cons]
          omega
        · simp only [List.length_drop, List.length_cons]
          omega

theorem chunks_cons (h : Hotel) (t : List Hotel) :
    chunks (h :: t) = (h :: t).take 100 :: chunks ((h :: t).drop 100) := by
  unfold chunks
  simp only [List.length_cons, chunksFuel]
  congr 1
  apply chunksFuel_ge
  · simp only [List.length_drop, List.length_cons]
    omega
  · exact le_rfl

theorem chunkSizes_step (n : Nat) (hn : 0 < n) :
    chunkSizes n = min 100 n :: chunkSizes (n - 100) := by
  unfold chunkSizes
  by_cases hle : n < 100
  · have h1 : n / 100 = 0 := Nat.div_eq_of_lt hle
    have h2 : n % 100 = n := Nat.mod_eq_of_lt hle
    have h3 : n - 100 = 0 := by omega
    have h4 : min 100 n = n := by omega
    rw [h1, h2, h3, h4]
    simp [hn.ne']
  · push_neg at hle
    have h1 : n / 100 = (n - 100) / 100 + 1 :=
      Nat.div_eq_sub_div (by norm_num) hle
    have h2 : n % 100 = (n - 100) % 100 := by omega
    have h4 : min 100 n = 100 := by omega
    rw [h1, h2, h4, List.replicate_succ]
    simp

theorem chunks_map_length_aux : ∀ (n : Nat) (l : List Hotel), l.length ≤ n →
    (chunks l).map List.length = chunkSizes l.length := by
  intro n
  induction n with
  | zero =>
    intro l hl
    have h : l = [] := List.eq_nil_of_length_eq_zero (Nat.le_zero.mp hl)
    subst h
    simp [chunks, chunksFuel, chunkSizes]
  | succ n ih =>
    intro l hl
    cases l with
    | nil => simp [chunks, chunksFuel, chunkSizes]
    | cons h t =>
      rw [chunks_cons, List.map_cons,
          ih ((h :: t).drop 100) (by simp only [List.length_drop, List.length_cons] at *; omega)]
      rw [List.length_take, List.length_drop]
      exact (chunkSizes_step (h :: t).length (by simp)).symm

theorem chunks_map_length (l : List Hotel) :
    (chunks l).map List.length = chunkSizes l.length :=
  chunks_map_length_aux l.length l le_rfl

theorem chunks_length (l : List Hotel) :
    (chunks l).length = (l.length + 99) / 100 := by
  have h := congrArg List.length (chunks_map_length l)
  rw [List.length_map] at h
  rw [h]
  unfold chunkSizes
  rw [List.length_append, List.length_replicate]
  by_cases h0 : l.length % 100 = 0
  · rw [if_pos h0]
    simp only [List.length_nil, Nat.add_zero]
    omega
  · rw [if_neg h0]
    simp only [List.length_cons, List.length_nil]
    omega

theorem persist_foldl_fst (upsert : List Row → Bool) (bs : List (List Hotel))
    (st : Nat × List PersistLog) :
    (bs.foldl (persistStep upsert) st).1 =
      st.1 + (((bs.filter fun b => upsert (b.map toRow)).map List.length).sum) := by
  induction bs generalizing st with
  | nil => simp
  | cons b t ih =>
    simp only [List.foldl_cons, List.filter_cons]
    by_cases hb : upsert (b.map toRow) = true
    · rw [ih]
      simp only [persistStep, hb, if_pos, List.map_cons, List.sum_cons,
                 List.length_map]
      omega
    · rw [ih]
      simp [persistStep, hb]

theorem persist_logs_shift (upsert : List Row → Bool) (bs : List (List Hotel))
    (t : Nat) (logs : List PersistLog) :
    (bs.foldl (persistStep upsert) (t, logs)).2 =
      logs ++ (bs.foldl (persistStep upsert) (t, [])).2 := by
  induction bs generalizing t logs with
  | nil => simp
  | cons b bt ih =>
    simp only [List.foldl_cons]
    obtain ⟨t2, L, h1, h2⟩ :
        ∃ t2 L, persistStep upsert (t, logs) b = (t2, logs ++ L) ∧
                persistStep upsert (t, []) b = (t2, L) := by
      by_cases hb : upsert (b.map toRow) = true
      · exact ⟨t + (b.map toRow).length,
               [.inserted (b.map toRow).length (t + (b.map toRow).length)],
               by simp [persistStep, hb], by simp [persistStep, hb]⟩
      · exact ⟨t, [.batchFailed ((b.map toRow).take 2)],
               by simp [persistStep, hb], by simp [persistStep, hb]⟩
    rw [h1, h2, ih t2 (logs ++ L), ih t2 L, List.append_assoc]

theorem persist_logs_length (upsert : List Row → Bool) (bs : List (List Hotel))
    (st : Nat × List PersistLog) :
    (bs.foldl (persistStep upsert) st).2.length = st.2.length + bs.length := by
  induction bs generalizing st with
  | nil => simp
  | cons b t ih =>
    simp only [List.foldl_cons]
    rw [ih]
    by_cases hb : upsert (b.map toRow) = true <;>
      simp [persistStep, hb] <;> omega

theorem persist_logs_get (upsert : List Row → Bool) : ∀ (bs : List (List Hotel))
    (tt : Nat) (i : Nat) (hi : i < bs.length),
    upsert ((bs.get ⟨i, hi⟩).map toRow) = false →
    (bs.foldl (persistStep upsert) (tt, [])).2[i]? =
      some (.batchFailed (((bs.get ⟨i, hi⟩).map toRow).take 2)) := by
  intro bs
  induction bs with
  | nil => intro tt i hi; simp at hi
  | cons b t ih =>
    intro tt i hi hfail
    simp only [List.foldl_cons]
    cases i with
    | zero =>
      simp only [List.get] at hfail ⊢
      have hstep : persistStep upsert (tt, []) b =
          (tt, [.batchFailed ((b.map toRow).take 2)]) := by
        simp [persistStep, hfail]
      rw [hstep, persist_logs_shift]
      simp
    | succ j =>
      have hj : j < t.length := by simpa using hi
      have hfail2 : upsert ((t.get ⟨j, hj⟩).map toRow) = false := by
        simpa using hfail
      by_cases hb : upsert (b.map toRow) = true
      · have hstep : persistStep upsert (tt, []) b =
            (tt + (b.map toRow).length,
             [.inserted (b.map toRow).length (tt + (b.map toRow).length)]) := by
          simp [persistStep, hb]
        rw [hstep, persist_logs_shift]
        simpa using ih (tt + (b.map toRow).length) j hj hfail2
      · have hstep : persistStep upsert (tt, []) b =
            (tt, [.batchFailed ((b.map toRow).take 2)]) := by
          simp [persistStep, hb]
        rw [hstep, persist_logs_shift]
        simpa using ih tt j hj hfail2

/-- C4: insert_to_supabase partitions the collection by the range(0, n,
100) slicing: the batch sizes are n / 100 batches of 100 followed, when n
is not a multiple of 100, by one batch of n mod 100, so the batch count is
ceil(n/100) = (n+99)/100; for 250 records the sizes are 100, 100, 50; and
the returned total is the sum of the sizes of exactly those batches whose
upsert succeeded (not necessarily n). -/
theorem C4_insert_batching (hotels : List Hotel) (upsert : List Row → Bool) :
    (chunks hotels).map List.length = chunkSizes hotels.length ∧
    (chunks hotels).length = (hotels.length + 99) / 100 ∧
    chunkSizes 250 = [100, 100, 50] ∧
    (insert_to_supabase hotels upsert).1 =
      (((chunks hotels).filter fun b => upsert (b.map toRow)).map List.length).sum := by
  refine ⟨chunks_map_length hotels, chunks_length hotels, by decide, ?_⟩
  unfold insert_to_supabase
  rw [persist_foldl_fst]
  simp

/-- C6: when the i-th batch's upsert raises, insert_to_supabase catches
the exception: the run still prints one line per batch (it proceeds past
the failure to the remaining batches), the i-th line is the error line
carrying insert_data[:2] as its truncated payload sample, and the returned
total is the sum of the successful batch sizes only, so the failing
batch's size is not added. -/
theorem C6_batch_failure (hotels : List Hotel) (upsert : List Row → Bool)
    (i : Nat) (hi : i < (chunks hotels).length)
    (hfail : upsert (((chunks hotels).get ⟨i, hi⟩).map toRow) = false) :
    (insert_to_supabase hotels upsert).2.length = (chunks hotels).length ∧
    (insert_to_supabase hotels upsert).2[i]? =
      some (.batchFailed ((((chunks hotels).get ⟨i, hi⟩).map toRow).take 2)) ∧
    (insert_to_supabase hotels upsert).1 =
      (((chunks hotels).filter fun b => upsert (b.map toRow)).map List.length).sum := by
  unfold insert_to_supabase
  refine ⟨?_, ?_, ?_⟩
  · rw [persist_logs_length]
    simp
  · exact persist_logs_get upsert (chunks hotels) 0 i hi hfail
  · rw [persist_foldl_fst]
    simp

/-- C6 witness: on the two-record collection with an always-failing
upsert the single batch is logged as failed with its 2-row sample, the log
has one line per batch, and the total is 0. -/
theorem C6_batch_failure_witness :
    (insert_to_supabase hotelsWX upsertFalse).2.length = (chunks hotelsWX).length ∧
    (insert_to_supabase hotelsWX upsertFalse).2[0]? =
      some (.batchFailed ((hotelsWX.map toRow).take 2)) ∧
    (insert_to_supabase hotelsWX upsertFalse).1 =
      (((chunks hotelsWX).filter fun b => upsertFalse (b.map toRow)).map List.length).sum :=
  C6_batch_failure hotelsWX upsertFalse 0 (by decide) rfl

/-- C9: the upsert payload coercion of lines 158-166: a latitude or
longitude that is absent or exactly 0 is stored as null and any other
value is kept; a rating of exactly 0 (the filter's unrated marker) is
stored as null and any other rating is kept; the review count is always
stored as a plain integer, a falsy 0 staying 0 rather than null; and
concretely hotelZero (rating 0, latitude 0) is stored with a null rating
and a null latitude. -/
theorem C9_toRow_falsy (h : Hotel) :
    (toRow h).latitude =
      (if h.latitude = none ∨ h.latitude = some 0 then none else h.latitude) ∧
    (toRow h).longitude =
      (if h.longitude = none ∨ h.longitude = some 0 then none else h.longitude) ∧
    (toRow h).rating = (if h.rating = 0 then none else some h.rating) ∧
    (toRow h).user_ratings_total = h.user_ratings_total ∧
    (toRow hotelZero).rating = none ∧
    (toRow hotelZero).latitude = none := by
  refine ⟨?_, ?_, ?_, ?_, by decide, by decide⟩
  · cases hl : h.latitude with
    | none => simp [toRow, hl]
    | some v =>
      by_cases hv : v = 0
      · simp [toRow, hl, hv]
      · simp [toRow, hl, hv]
  · cases hl : h.longitude with
    | none => simp [toRow, hl]
    | some v =>
      by_cases hv : v = 0
      · simp [toRow, hl, hv]
      · simp [toRow, hl, hv]
  · by_cases hr : h.rating = 0
    · simp [toRow, hr]
    · simp [toRow, hr]
  · by_cases hu : h.user_ratings_total = 0
    · simp [toRow, hu]
    · simp [toRow, hu]

theorem cityEffects_mem (w : CityWorld) (e : Effect) (he : e ∈ cityEffects w) :
    e = .http := by
  obtain ⟨p1, p2⟩ := w
  cases p1 with
  | exn => simpa [cityEffects] using he
  | ok d =>
    simp only [cityEffects] at he
    split at he
    · simpa using he
    · simpa using he

theorem crawlEffects_mem (world : String → CityWorld) (e : Effect)
    (he : e ∈ (CITIES.map fun c => cityEffects (world c)).flatten) : e = .http := by
  rw [List.mem_flatten] at he
  obtain ⟨l, hl, hel⟩ := he
  rw [List.mem_map] at hl
  obtain ⟨c, -, rfl⟩ := hl
  exact cityEffects_mem _ e hel

theorem upsert_after_helper (A B : List Effect) (i : Nat)
    (hA : Effect.upsertCall ∉ A) (hW : A[A.length - 1]? = some .fileWrite)
    (hi : (A ++ B)[i]? = some .upsertCall) :
    ∃ j, j < i ∧ (A ++ B)[j]? = some .fileWrite := by
  have hApos : 0 < A.length := by
    by_contra h
    have hnil : A = [] := List.eq_nil_of_length_eq_zero (by omega)
    subst hnil
    simp at hW
  have hige : A.length ≤ i := by
    by_contra h
    push_neg at h
    have hleft : (A ++ B)[i]? = A[i]? := by
      rw [List.getElem?_append]
      simp [h]
    rw [hleft] at hi
    exact hA (List.getElem?_mem hi)
  refine ⟨A.length - 1, by omega, ?_⟩
  have hleft : (A ++ B)[A.length - 1]? = A[A.length - 1]? := by
    rw [List.getElem?_append]
    simp [show A.length - 1 < A.length by omega]
  rw [hleft, hW]

/-- C7: when the places-API credential, the database endpoint URL, or the
privileged database credential is missing from the environment (unset or
empty, per Python truthiness), main ends in one of the two diagnostic
early-return branches and its effect trace is empty: no HTTP request, no
database client creation, no file write, no upsert. -/
theorem C7_missing_config (cfg : Config) (world : String → CityWorld)
    (backupOk : Bool) (upsert : List Row → Bool)
    (hmiss : strTruthy cfg.googleKey = false ∨ strTruthy cfg.supabaseUrl = false ∨
             strTruthy cfg.supabaseKey = false) :
    (main_run cfg world backupOk upsert).2 = [] ∧
    ((main_run cfg world backupOk upsert).1 = .missingApiKey ∨
     (main_run cfg world backupOk upsert).1 = .missingDbConfig) := by
  unfold main_run
  by_cases hg : strTruthy cfg.googleKey = true
  · rw [if_neg (not_not_intro hg)]
    have hdb : ¬ (strTruthy cfg.supabaseUrl = true ∧ strTruthy cfg.supabaseKey = true) := by
      rcases hmiss with h | h | h
      · rw [h] at hg; cases hg
      · intro hc; rw [h] at hc; simp at hc
      · intro hc; rw [h] at hc; simp at hc
    rw [if_pos hdb]
    exact ⟨rfl, Or.inr rfl⟩
  · rw [if_pos hg]
    exact ⟨rfl, Or.inl rfl⟩

/-- C7 witness: with the API key unset and the database pair present, the
run aborts with the missing-key diagnostic and an empty effect trace. -/
theorem C7_missing_config_witness :
    (main_run cfgNoKey worldExn true upsertTrue).2 = [] ∧
    ((main_run cfgNoKey worldExn true upsertTrue).1 = .missingApiKey ∨
     (main_run cfgNoKey worldExn true upsertTrue).1 = .missingDbConfig) :=
  C7_missing_config cfgNoKey worldExn true upsertTrue (Or.inl rfl)

/-- C8: in every run, any upsert call in the effect trace is strictly
preceded by the backup file write — the write completes before the first
remote upsert is attempted — and when the backup write raises, the run
ends with no upsert call in the trace at all. -/
theorem C8_backup_before_upsert (cfg : Config) (world : String → CityWorld)
    (backupOk : Bool) (upsert : List Row → Bool) :
    (∀ i : Nat, (main_run cfg world backupOk upsert).2[i]? = some Effect.upsertCall →
      ∃ j : Nat, j < i ∧
        (main_run cfg world backupOk upsert).2[j]? = some Effect.fileWrite) ∧
    (backupOk = false → Effect.upsertCall ∉ (main_run cfg world backupOk upsert).2) := by
  unfold main_run
  by_cases hg : strTruthy cfg.googleKey = true
  case neg =>
    rw [if_pos hg]
    exact ⟨fun i hi => by simp at hi, fun _ => by simp⟩
  case pos =>
  rw [if_neg (not_not_intro hg)]
  by_cases hdb : strTruthy cfg.supabaseUrl = true ∧ strTruthy cfg.supabaseKey = true
  case neg =>
    rw [if_pos hdb]
    exact ⟨fun i hi => by simp at hi, fun _ => by simp⟩
  case pos =>
  rw [if_neg (not_not_intro hdb)]
  simp only
  by_cases hlen :
      (get_all_hotels fun c => (search_hotels_in_city (world c)).1).length = 0
  case pos =>
    rw [if_pos hlen]
    have hnot : Effect.upsertCall ∉
        Effect.dbClient :: (CITIES.map fun c => cityEffects (world c)).flatten := by
      intro hmem
      rcases List.mem_cons.mp hmem with h | h
      · exact absurd h (by decide)
      · exact absurd (crawlEffects_mem world _ h) (by decide)
    exact ⟨fun i hi => absurd (List.getElem?_mem hi) hnot, fun _ => hnot⟩
  case neg =>
  rw [if_neg hlen]
  by_cases hbk : backupOk = true
  case neg =>
    have hbk2 : backupOk = false := by
      cases backupOk
      · rfl
      · exact absurd rfl hbk
    rw [if_pos (by rw [hbk2]; decide)]
    have hnot : Effect.upsertCall ∉
        Effect.dbClient :: (CITIES.map fun c => cityEffects (world c)).flatten ++
          [Effect.fileWrite] := by
      intro hmem
      rcases List.mem_cons.mp hmem with h | h
      · exact absurd h (by decide)
      · rcases List.mem_append.mp h with h2 | h2
        · exact absurd (crawlEffects_mem world _ h2) (by decide)
        · exact absurd h2 (by decide)
    exact ⟨fun i hi => absurd (List.getElem?_mem hi) hnot, fun _ => hnot⟩
  case pos =>
  rw [if_neg (by rw [hbk]; decide)]
  constructor
  · intro i hi
    dsimp only at hi ⊢
    have hshape : Effect.dbClient ::
          (CITIES.map fun c => cityEffects (world c)).flatten ++ [Effect.fileWrite] ++
          ((chunks (get_all_hotels fun c => (search_hotels_in_city (world c)).1)).map
            fun _ => Effect.upsertCall) =
        ((Effect.dbClient :: (CITIES.map fun c => cityEffects (world c)).flatten) ++
          [Effect.fileWrite]) ++
          ((chunks (get_all_hotels fun c => (search_hotels_in_city (world c)).1)).map
            fun _ => Effect.upsertCall) := by
      simp
    rw [hshape] at hi ⊢
    refine upsert_after_helper _ _ i ?_ ?_ hi
    · intro hmem
      rcases List.mem_append.mp hmem with h2 | h2
      · rcases List.mem_cons.mp h2 with h3 | h3
        · exact absurd h3 (by decide)
        · exact absurd (crawlEffects_mem world _ h3) (by decide)
      · exact absurd h2 (by decide)
    · have hlen2 :
          ((Effect.dbClient :: (CITIES.map fun c => cityEffects (world c)).flatten) ++
            [Effect.fileWrite]).length - 1 =
          (Effect.dbClient :: (CITIES.map fun c => cityEffects (world c)).flatten).length := by
        simp
      rw [hlen2]
      exact List.getElem?_concat_length _ _
  · intro hfalse
    rw [hbk] at hfalse
    cases hfalse

/-- C8 witness: with a failing backup write and full configuration, the
run performs no upsert call. -/
theorem C8_backup_before_upsert_witness :
    Effect.upsertCall ∉ (main_run cfgFull worldExn false upsertTrue).2 :=
  (C8_backup_before_upsert cfgFull worldExn false upsertTrue).2 rfl

/-- C10: with full configuration but an empty deduplicated collection,
main ends in the noHotels diagnostic branch and its effect trace contains
no file write and no upsert call: the backup file is not written and the
persister is never invoked. -/
theorem C10_empty_collection (cfg : Config) (world : String → CityWorld)
    (backupOk : Bool) (upsert : List Row → Bool)
    (hg : strTruthy cfg.googleKey = true)
    (hu : strTruthy cfg.supabaseUrl = true)
    (hk : strTruthy cfg.supabaseKey = true)
    (hempty : get_all_hotels (fun c => (search_hotels_in_city (world c)).1) = []) :
    (main_run cfg world backupOk upsert).1 = .noHotels ∧
    Effect.fileWrite ∉ (main_run cfg world backupOk upsert).2 ∧
    Effect.upsertCall ∉ (main_run cfg world backupOk upsert).2 := by
  unfold main_run
  rw [if_neg (not_not_intro hg), if_neg (not_not_intro ⟨hu, hk⟩),
      if_pos (by rw [hempty]; rfl)]
  refine ⟨rfl, ?_, ?_⟩ <;>
  · intro hmem
    rcases List.mem_cons.mp hmem with h | h
    · exact absurd h (by decide)
    · exact absurd (crawlEffects_mem world _ h) (by decide)

/-- C10 witness: a fully configured run whose every fetch raises gathers
nothing, ends in the noHotels branch, and neither writes the backup nor
upserts. -/
theorem C10_empty_collection_witness :
    (main_run cfgFull worldExn true upsertTrue).1 = .noHotels ∧
    Effect.fileWrite ∉ (main_run cfgFull worldExn true upsertTrue).2 ∧
    Effect.upsertCall ∉ (main_run cfgFull worldExn true upsertTrue).2 :=
  C10_empty_collection cfgFull worldExn true upsertTrue rfl rfl rfl (by decide)

end CrawlHotels
